import Mathlib

/-!
Verification development for the ai-chat-widget LLM session runtime.

The definitions below are a shallow embedding of the TypeScript sources:
  * src/types.ts                    — Message, ToolCall, StreamChunk, configs
  * src/core/MemoryWindow.ts        — context window manager
  * src/core/PromptEngine.ts        — prompt composition and vendor shaping
  * src/core/StreamingEngine.ts     — stream accumulator
  * src/providers/ClaudeProvider.ts — Anthropic-style adapter request shaping
  * src/providers/OpenAIProvider.ts — OpenAI adapter SSE line handling

JavaScript specifics are modelled explicitly: string truthiness (the empty
string is falsy), Array.prototype.slice with a possibly negative start
index, and optional fields as Option. Numbers that the code compares and
subtracts are modelled as Int where sign matters and Nat where the source
only ever holds counts.
-/

namespace ChatWidget

/-- Roles of src/types.ts MessageRole. -/
inductive MessageRole where
  | system
  | user
  | assistant
  | tool
  deriving DecidableEq, Repr

/-- ToolCall of src/types.ts; the function payload is kept as its two
string fields (name, serialized arguments). -/
structure ToolCall where
  id : String
  fname : String
  arguments : String
  deriving DecidableEq, Repr

/-- Message of src/types.ts. Optional fields become Option. -/
structure Message where
  id : String
  role : MessageRole
  content : String
  name : Option String := none
  tool_calls : Option (List ToolCall) := none
  tool_call_id : Option String := none
  timestamp : Option Nat := none
  deriving DecidableEq, Repr

/-- Usage object of src/types.ts StreamChunk.usage. -/
structure Usage where
  promptTokens : Nat
  completionTokens : Nat
  totalTokens : Nat
  deriving DecidableEq, Repr

/-- StreamChunk of src/types.ts. The JS field done is either absent or a
boolean; absence behaves as false under truthiness, so it is a Bool with
default false. -/
structure StreamChunk where
  content : Option String := none
  toolCalls : Option (List ToolCall) := none
  usage : Option Usage := none
  finishReason : Option String := none
  done : Bool := false
  deriving DecidableEq, Repr

/-- Truthiness of an optional JS string: undefined and the empty string
are falsy. -/
def strTruthy : Option String → Bool
  | none => false
  | some s => s ≠ ""

/-- JS Array.prototype.slice with one argument, on lists.
Negative start counts from the end, clamped at 0; positive start is
clamped at the length. -/
def jsSlice (start : Int) (l : List α) : List α :=
  let len : Int := l.length
  let b : Int := if start < 0 then max (len + start) 0 else min start len
  l.drop b.toNat

/-- MemoryConfig of src/types.ts: all fields optional. -/
structure MemoryConfig where
  maxMessages : Option Int := none
  maxTokens : Option Int := none
  enableSummarization : Option Bool := none
  systemPromptLocked : Option Bool := none
  deriving DecidableEq, Repr

/-- The Required MemoryConfig held in MemoryWindow.config after the
constructor fills the defaults. -/
structure MemoryConfigR where
  maxMessages : Int
  maxTokens : Int
  enableSummarization : Bool
  systemPromptLocked : Bool
  deriving DecidableEq, Repr

/-- Private state of a MemoryWindow instance (src/core/MemoryWindow.ts). -/
structure MemoryWindow where
  config : MemoryConfigR
  messages : List Message := []
  systemPrompt : Option String := none
  pinnedMessages : List Message := []
  deriving DecidableEq, Repr

namespace MemoryWindow

/-- Constructor of MemoryWindow: defaults 50, 8000, false, true. -/
def mk0 (c : MemoryConfig) : MemoryWindow :=
  { config :=
      { maxMessages := c.maxMessages.getD 50
        maxTokens := c.maxTokens.getD 8000
        enableSummarization := c.enableSummarization.getD false
        systemPromptLocked := c.systemPromptLocked.getD true } }

/-- MemoryWindow.setSystemPrompt: writes only when the lock is off or the
current prompt is falsy (unset or empty). -/
def setSystemPrompt (w : MemoryWindow) (prompt : String) : MemoryWindow :=
  if ¬w.config.systemPromptLocked ∨ ¬strTruthy w.systemPrompt then
    { w with systemPrompt := some prompt }
  else
    w

/-- MemoryWindow.pinMessages: replaces the pinned set. -/
def pinMessages (w : MemoryWindow) (msgs : List Message) : MemoryWindow :=
  { w with pinnedMessages := msgs }

/-- MemoryWindow.trim: when the transcript exceeds maxMessages, keep
messages.slice(-maxMessages). -/
def trim (w : MemoryWindow) : MemoryWindow :=
  if (w.messages.length : Int) > w.config.maxMessages then
    { w with messages := jsSlice (-w.config.maxMessages) w.messages }
  else
    w

/-- MemoryWindow.addMessage: push then trim. -/
def addMessage (w : MemoryWindow) (m : Message) : MemoryWindow :=
  trim { w with messages := w.messages ++ [m] }

/-- MemoryWindow.addMessages: push all then trim. -/
def addMessages (w : MemoryWindow) (ms : List Message) : MemoryWindow :=
  trim { w with messages := w.messages ++ ms }

/-- MemoryWindow.getAllMessages. -/
def getAllMessages (w : MemoryWindow) : List Message :=
  w.messages

/-- MemoryWindow.clear: empties only the transcript. -/
def clear (w : MemoryWindow) : MemoryWindow :=
  { w with messages := [] }

/-- MemoryWindow.estimateTokens: Math.ceil(length / 4). -/
def estimateTokens (text : String) : Nat :=
  (text.length + 3) / 4

/-- Inner loop of MemoryWindow.trimByTokens, walking the candidate list
from newest to oldest (the argument is the reversed candidate list) and
unshifting each message that still fits; the first message that does not
fit stops the loop in both the summarization and the plain branch.
The returned list is in original (oldest-first) order. -/
def tbLoop (maxTokens : Int) : List Message → Nat → List Message
  | [], _ => []
  | m :: rest, total =>
      let msgTokens := estimateTokens m.content
      if ((total + msgTokens : Nat) : Int) ≤ maxTokens then
        tbLoop maxTokens rest (total + msgTokens) ++ [m]
      else
        []

/-- Initial token total of MemoryWindow.trimByTokens: the system prompt
is counted first when it is truthy. -/
def sysTokens (w : MemoryWindow) : Nat :=
  match w.systemPrompt with
  | some s => if s ≠ "" then estimateTokens s else 0
  | none => 0

/-- MemoryWindow.trimByTokens: budget-trims a candidate list, counting the
system prompt first when it is truthy; falls back to slice(-1) of the
candidates when nothing fits. -/
def trimByTokens (w : MemoryWindow) (msgs : List Message) : List Message :=
  if w.config.maxTokens ≤ 0 then
    msgs
  else
    let result := tbLoop w.config.maxTokens msgs.reverse (sysTokens w)
    if result.length > 0 then result else jsSlice (-1) msgs

/-- Id-based duplicate removal of MemoryWindow.getContext: keep the first
occurrence of each id (the seen set is the list of ids already kept). -/
def dedupGo : List Message → List String → List Message
  | [], _ => []
  | m :: rest, seen =>
      if m.id ∈ seen then
        dedupGo rest seen
      else
        m :: dedupGo rest (m.id :: seen)

/-- Duplicate removal starting from an empty seen set. -/
def dedupById (l : List Message) : List Message :=
  dedupGo l []

/-- Result shape of MemoryWindow.getContext; the systemPrompt field is
present only when the stored prompt is truthy. -/
structure ContextResult where
  systemPrompt : Option String := none
  messages : List Message := []
  deriving DecidableEq, Repr

/-- MemoryWindow.getContext: pinned messages first, then the last
maxMessages transcript entries, duplicates (by id) removed keeping the
first occurrence, then token trimming when maxTokens > 0. -/
def getContext (w : MemoryWindow) : ContextResult :=
  let sysField : Option String :=
    match w.systemPrompt with
    | some s => if s ≠ "" then some s else none
    | none => none
  let result := w.pinnedMessages ++ jsSlice (-w.config.maxMessages) w.messages
  let deduped := dedupById result
  let msgs := if w.config.maxTokens > 0 then w.trimByTokens deduped else deduped
  { systemPrompt := sysField, messages := msgs }

end MemoryWindow

/-- PluginContext of src/types.ts, with the metadata record kept as the
two optional opaque payloads compose puts into it (jsonSchema, tools are
serialized structured data the core does not parse). -/
structure PluginContext where
  messages : List Message
  systemPrompt : Option String := none
  jsonSchema : Option String := none
  tools : Option String := none
  deriving DecidableEq, Repr

/-- Outcome of running a beforeSend hook: it may throw (error), return a
falsy value (ok none, modelling null or undefined), or return a context. -/
def HookResult := Except String (Option PluginContext)

/-- ChatPlugin of src/types.ts restricted to the hook PromptEngine.compose
runs; beforeSend is optional. -/
structure ChatPlugin where
  name : String
  beforeSend : Option (PluginContext → HookResult) := none

namespace PromptEngine

/-- PromptEngine.applyPlugin: a thrown error or a falsy result leaves the
context unchanged. -/
def applyPlugin (transform : PluginContext → HookResult)
    (context : PluginContext) : PluginContext :=
  match transform context with
  | .ok (some result) => result
  | .ok none => context
  | .error _ => context

/-- Synthesized system message of PromptEngine.compose; Date.now() is the
explicit now parameter. -/
def sysMessage (now : Nat) (systemPrompt : String) : Message :=
  { id := "system-" ++ toString now
    role := .system
    content := systemPrompt
    timestamp := some now }

/-- PromptEngine.compose: prepend a synthesized system message when the
prompt is truthy, append the window messages, then fold the beforeSend
hooks over the plugin context when the plugin list is non-empty. -/
def compose (now : Nat) (systemPrompt : Option String)
    (messages : List Message) (plugins : List ChatPlugin)
    (jsonSchema : Option String := none) (tools : Option String := none) :
    List Message :=
  let composed :=
    (match systemPrompt with
     | some sp => if sp ≠ "" then [sysMessage now sp] else []
     | none => []) ++ messages
  if plugins.isEmpty then
    composed
  else
    let pluginContext : PluginContext :=
      { messages := composed
        systemPrompt := systemPrompt
        jsonSchema := jsonSchema
        tools := tools }
    (plugins.foldl
      (fun ctx p =>
        match p.beforeSend with
        | some f => applyPlugin f ctx
        | none => ctx)
      pluginContext).messages

/-- Loop body of PromptEngine.formatForClaude: system contents accumulate
into systemContent; a non-system message receives the accumulated content
prepended only when it is the first pushed message and the accumulator is
truthy. -/
def formatForClaudeGo :
    List Message → List Message → String → List Message
  | [], formatted, _ => formatted
  | msg :: rest, formatted, systemContent =>
      if msg.role = .system then
        formatForClaudeGo rest formatted (systemContent ++ msg.content ++ "\n\n")
      else
        if systemContent ≠ "" ∧ formatted = [] then
          formatForClaudeGo rest
            (formatted ++ [{ msg with content := systemContent ++ msg.content }]) ""
        else
          formatForClaudeGo rest (formatted ++ [msg]) systemContent

/-- Value of the systemContent accumulator after the formatForClaude loop
has consumed a run of system messages, starting from the empty string:
each system content is appended followed by a blank-line separator. -/
def sysConcat (msgs : List Message) : String :=
  msgs.foldl (fun acc m => acc ++ m.content ++ "\n\n") ""

/-- PromptEngine.formatForClaude: runs the merging loop and returns the
original list when the loop produced nothing. -/
def formatForClaude (messages : List Message) : List Message :=
  let formatted := formatForClaudeGo messages [] ""
  if formatted.length > 0 then formatted else messages

/-- PromptEngine.formatForProvider: only the claude vendor id triggers a
transform. -/
def formatForProvider (messages : List Message) (provider : String) :
    List Message :=
  if provider = "claude" then formatForClaude messages else messages

end PromptEngine

/-- Result of one StreamingEngine.stream run: the returned message, the
chunks passed to handler.onChunk in order, and whether handler.onComplete
was invoked. -/
structure StreamRunResult where
  message : Message
  onChunkCalls : List StreamChunk
  onCompleteCalled : Bool
  deriving DecidableEq, Repr

namespace StreamingEngine

/-- Per-chunk state of the streaming loop: accumulated content, the
current message being built, and the reversed log of onChunk calls. -/
structure LoopState where
  accumulatedContent : String
  currentMessage : Message
  chunkLogRev : List StreamChunk
  deriving DecidableEq, Repr

/-- One iteration body of the for-await loop in StreamingEngine.stream,
minus the abort check: accumulate truthy content, replace tool calls
wholesale when present, invoke onChunk, and report whether the chunk was
terminal (done flag or truthy finishReason). -/
def applyChunk (st : LoopState) (chunk : StreamChunk) : LoopState × Bool :=
  let st :=
    if strTruthy chunk.content then
      let acc := st.accumulatedContent ++ chunk.content.getD ""
      { st with
          accumulatedContent := acc
          currentMessage := { st.currentMessage with content := acc } }
    else
      st
  let st :=
    if chunk.toolCalls.isSome then
      { st with
          currentMessage :=
            { st.currentMessage with tool_calls := chunk.toolCalls } }
    else
      st
  let st := { st with chunkLogRev := chunk :: st.chunkLogRev }
  if chunk.done ∨ strTruthy chunk.finishReason then
    ({ st with
        currentMessage :=
          { st.currentMessage with content := st.accumulatedContent } },
      true)
  else
    (st, false)

/-- The consumption loop of StreamingEngine.stream. The cooperative abort
signal is modelled by cancelAt: when it is some k, the signal reads as
aborted once k chunks have been consumed, so the check at the top of
iteration i (0-based) sees aborted exactly when k ≤ i. -/
def streamGo (cancelAt : Option Nat) :
    List StreamChunk → Nat → LoopState → LoopState
  | [], _, st => st
  | chunk :: rest, i, st =>
      if (match cancelAt with | some k => decide (k ≤ i) | none => false) then
        st
      else
        let (st, terminal) := applyChunk st chunk
        if terminal then st else streamGo cancelAt rest (i + 1) st

/-- StreamingEngine.stream over a fully materialized chunk list: builds
the fresh assistant message, runs the loop, and then always invokes
handler.onComplete with the current message before returning it. -/
def streamRun (chunks : List StreamChunk) (cancelAt : Option Nat)
    (msgId : String) (now : Nat) : StreamRunResult :=
  let init : LoopState :=
    { accumulatedContent := ""
      currentMessage :=
        { id := msgId, role := .assistant, content := "", timestamp := some now }
      chunkLogRev := [] }
  let final := streamGo cancelAt chunks 0 init
  { message := final.currentMessage
    onChunkCalls := final.chunkLogRev.reverse
    onCompleteCalled := true }

end StreamingEngine

/-- Wire-format message object built by the provider adapters (plain role
string plus content). -/
structure WireMsg where
  role : String
  content : String
  deriving DecidableEq, Repr

namespace ClaudeProvider

/-- ClaudeProvider.formatMessages: drops assistant messages with empty or
whitespace-only content, requires non-empty content for the other
non-system roles, then renames system to user and folds tool to user. -/
def formatMessages (messages : List Message) : List WireMsg :=
  (messages.filter (fun msg =>
    if msg.role = .assistant ∧ (msg.content = "" ∨ msg.content.trim = "") then
      false
    else if msg.role ≠ .system then
      msg.content ≠ ""
    else
      true)).map (fun msg =>
    if msg.role = .system then
      { role := "user", content := msg.content }
    else
      { role := if msg.role = .assistant then "assistant" else "user"
        content := msg.content })

/-- The two claim-relevant fields of the request body built identically by
ClaudeProvider.stream and ClaudeProvider.chat: the messages array and the
optional top-level system field. -/
structure RequestBody where
  messages : List WireMsg
  system : Option String
  deriving DecidableEq, Repr

/-- Body construction of ClaudeProvider.stream and ClaudeProvider.chat:
format the messages, look for a system-role entry in the formatted list,
send the others as the messages array and the found content as the
top-level system field (absent when find returned undefined). -/
def buildBody (messages : List Message) : RequestBody :=
  let formattedMessages := formatMessages messages
  let systemMessage := formattedMessages.find? (fun m => m.role = "system")
  let conversationMessages :=
    formattedMessages.filter (fun m => m.role ≠ "system")
  { messages := conversationMessages
    system := systemMessage.map (fun m => m.content) }

end ClaudeProvider

namespace OpenAIProvider

/-- Parsed shape of one OpenAI SSE event: choices[0].delta fields. -/
structure Delta where
  content : Option String := none
  tool_calls : Option (List ToolCall) := none
  deriving DecidableEq, Repr

/-- Element of the choices array of an OpenAI SSE event. -/
structure Choice where
  delta : Option Delta := none
  finish_reason : Option String := none
  deriving DecidableEq, Repr

/-- JSON payload of one complete data line of the OpenAI stream. -/
structure Event where
  choices : List Choice := []
  usage : Option Usage := none
  deriving DecidableEq, Repr

/-- What the adapter observes of one complete data-line payload: the
literal end sentinel, a payload JSON.parse rejects, or a parsed event. -/
inductive DataPayload where
  | done
  | invalid (s : String)
  | event (e : Event)
  deriving DecidableEq, Repr

/-- One complete line of the SSE byte stream after buffering and newline
splitting: either a line that does not start with the data marker, or a
data line carrying a payload. -/
inductive SSELine where
  | other (s : String)
  | data (p : DataPayload)
  deriving DecidableEq, Repr

/-- Chunks yielded for one parsed event in OpenAIProvider.stream: truthy
delta content yields a content chunk, a present tool_calls array yields a
tool-call chunk, a truthy finish_reason yields a terminal chunk carrying
the usage. -/
def processEvent (e : Event) : List StreamChunk :=
  match e.choices.head? with
  | none => []
  | some choice =>
      (match choice.delta with
       | none => []
       | some d =>
           (if strTruthy d.content then
              [{ content := d.content }]
            else []) ++
           (if d.tool_calls.isSome then
              [{ toolCalls := d.tool_calls }]
            else []))
      ++
      (if strTruthy choice.finish_reason then
         [{ finishReason := choice.finish_reason, usage := e.usage, done := true }]
       else [])

/-- Line loop of OpenAIProvider.stream over the complete lines of the
byte stream: non-data lines are skipped, the end sentinel yields a
terminal chunk and returns from the generator, a malformed payload is
skipped, and a parsed event yields its chunks. -/
def processLines : List SSELine → List StreamChunk
  | [] => []
  | .other _ :: rest => processLines rest
  | .data .done :: _ => [{ done := true }]
  | .data (.invalid _) :: rest => processLines rest
  | .data (.event e) :: rest => processEvent e ++ processLines rest

end OpenAIProvider

/-- Shorthand for a user message used in concrete scenarios. -/
def exUser (i c : String) : Message :=
  { id := i, role := .user, content := c }

/-- Shorthand for a system message used in concrete scenarios. -/
def exSys (i c : String) : Message :=
  { id := i, role := .system, content := c }

/-! Helper lemmas. -/

lemma str_empty_append (s : String) : "" ++ s = s := by
  cases s with
  | mk data => exact congrArg String.mk (List.nil_append data)

/-- Unfolding of the messages field of getContext. -/
lemma getContext_messages (w : MemoryWindow) :
    (MemoryWindow.getContext w).messages =
      (if w.config.maxTokens > 0 then
        w.trimByTokens
          (MemoryWindow.dedupById
            (w.pinnedMessages ++ jsSlice (-w.config.maxMessages) w.messages))
      else
        MemoryWindow.dedupById
          (w.pinnedMessages ++ jsSlice (-w.config.maxMessages) w.messages)) :=
  rfl

/-! C7 — system prompt locking. -/

/-- C7 counterexample: with the lock enabled (the default), a first call
of setSystemPrompt with the empty string does not engage the lock, so a
second call overwrites it; the claim as stated (first write always wins
under the lock, for every pair of prompts) is false at the pair
("", "A"). -/
theorem system_prompt_lock_counterexample :
    (MemoryWindow.mk0 {}).config.systemPromptLocked = true ∧
    (((MemoryWindow.mk0 {}).setSystemPrompt "").setSystemPrompt "A").systemPrompt ≠ some "" ∧
    (((MemoryWindow.mk0 {}).setSystemPrompt "").setSystemPrompt "A").systemPrompt = some "A" := by
  decide

/-- C7 amended: with the lock enabled and a non-empty first prompt, the
first write wins; with the lock disabled, the second call wins. An empty
first prompt is falsy and does not engage the lock. -/
theorem system_prompt_lock_amended (w : MemoryWindow) (p1 p2 : String)
    (h0 : w.systemPrompt = none) :
    (w.config.systemPromptLocked = true → p1 ≠ "" →
      ((w.setSystemPrompt p1).setSystemPrompt p2).systemPrompt = some p1) ∧
    (w.config.systemPromptLocked = false →
      ((w.setSystemPrompt p1).setSystemPrompt p2).systemPrompt = some p2) := by
  constructor
  · intro hl hp1
    unfold MemoryWindow.setSystemPrompt
    simp [h0, strTruthy, hl, hp1]
  · intro hl
    unfold MemoryWindow.setSystemPrompt
    simp [hl]

/-- C7 witness: at the window built by the default constructor and the
non-empty prompts "A", "B", the locked window keeps "A". -/
theorem system_prompt_lock_amended_witness :
    (((MemoryWindow.mk0 {}).setSystemPrompt "A").setSystemPrompt "B").systemPrompt = some "A" :=
  (system_prompt_lock_amended (MemoryWindow.mk0 {}) "A" "B" rfl).1 rfl (by decide)

/-! C10 — empty prompt does not engage the lock and is omitted from the
context. -/

/-- C10: when setSystemPrompt is first called with the empty string, the
lock does not engage (a later call overwrites even while the lock flag is
enabled, because the empty prompt is falsy), and while the stored prompt
is the empty string getContext omits the systemPrompt field. -/
theorem empty_prompt_no_lock (w : MemoryWindow) (p2 : String)
    (h0 : w.systemPrompt = none) :
    ((w.setSystemPrompt "").setSystemPrompt p2).systemPrompt = some p2 ∧
    (MemoryWindow.getContext (w.setSystemPrompt "")).systemPrompt = none := by
  constructor
  · unfold MemoryWindow.setSystemPrompt
    simp [h0, strTruthy]
  · unfold MemoryWindow.setSystemPrompt MemoryWindow.getContext
    simp [h0, strTruthy]

/-- C10 witness at the default window and the prompt "Z". -/
theorem empty_prompt_no_lock_witness :
    (((MemoryWindow.mk0 {}).setSystemPrompt "").setSystemPrompt "Z").systemPrompt = some "Z" ∧
    (MemoryWindow.getContext ((MemoryWindow.mk0 {}).setSystemPrompt "")).systemPrompt = none :=
  empty_prompt_no_lock (MemoryWindow.mk0 {}) "Z" rfl

/-! C9 — a beforeSend hook returning a falsy value leaves the composition
context unchanged. -/

/-- C9: applyPlugin maps a hook returning null or undefined to the
unchanged input context, and inserting such a hook anywhere in the plugin
chain leaves the result of compose unchanged, so compose never threads a
null or undefined context into later hooks or into the returned list. -/
theorem null_hook_context_preserved :
    (∀ ctx : PluginContext,
      PromptEngine.applyPlugin (fun _ => Except.ok none) ctx = ctx) ∧
    (∀ (now : Nat) (sp : Option String) (msgs : List Message)
       (js tl : Option String) (pre post : List ChatPlugin) (pname : String),
      PromptEngine.compose now sp msgs
          (pre ++ { name := pname, beforeSend := some (fun _ => Except.ok none) } :: post)
          js tl =
        PromptEngine.compose now sp msgs (pre ++ post) js tl) := by
  constructor
  · intro ctx
    rfl
  · intro now sp msgs js tl pre post pname
    unfold PromptEngine.compose
    have hfold : ∀ (init : PluginContext),
        List.foldl
            (fun ctx p =>
              match p.beforeSend with
              | some f => PromptEngine.applyPlugin f ctx
              | none => ctx)
            init
            (pre ++ { name := pname, beforeSend := some (fun _ => Except.ok none) } :: post) =
          List.foldl
            (fun ctx p =>
              match p.beforeSend with
              | some f => PromptEngine.applyPlugin f ctx
              | none => ctx)
            init (pre ++ post) := by
      intro init
      rw [List.foldl_append, List.foldl_append, List.foldl_cons]
      rfl
    by_cases hpp : (pre ++ post).isEmpty
    · have hpre : pre = [] := by
        cases pre with
        | nil => rfl
        | cons a l => simp [List.isEmpty] at hpp
      have hpost : post = [] := by
        subst hpre
        cases post with
        | nil => rfl
        | cons a l => simp [List.isEmpty] at hpp
      subst hpre
      subst hpost
      simp [PromptEngine.applyPlugin]
    · have hne : ¬(pre ++ { name := pname, beforeSend := some (fun _ => Except.ok none) } :: post).isEmpty := by
        cases pre <;> simp [List.isEmpty]
      simp only [if_neg hne, if_neg hpp]
      rw [hfold]

/-! C1 — the Anthropic adapter never extracts a system field. -/

/-- Every message produced by ClaudeProvider.formatMessages carries the
wire role user or assistant, never system, because the map renames system
entries to user before anything else looks at them. -/
lemma formatMessages_role_ne_system (msgs : List Message) :
    ∀ m ∈ ClaudeProvider.formatMessages msgs, m.role ≠ "system" := by
  intro m hm
  unfold ClaudeProvider.formatMessages at hm
  rcases List.mem_map.mp hm with ⟨msg, _, rfl⟩
  by_cases h : msg.role = .system
  · simp [h]
  · simp only [if_neg h]
    by_cases ha : msg.role = .assistant <;> simp [ha]

/-- The find for a system-role entry that stream and chat run over the
formatted list always comes back empty, so the body never carries a
top-level system field. -/
lemma buildBody_system_none (msgs : List Message) :
    (ClaudeProvider.buildBody msgs).system = none := by
  unfold ClaudeProvider.buildBody
  have hfind : (ClaudeProvider.formatMessages msgs).find?
      (fun m => m.role = "system") = none := by
    rw [List.find?_eq_none]
    intro m hm
    simpa using formatMessages_role_ne_system msgs m hm
  simp [hfind]

/-- C1: the claim (system-role messages are extracted out of the message
array and sent as a top-level system field) is contradicted by the code:
formatMessages renames system to user before stream and chat search for a
system role, so the search never succeeds. For every input the request
body has no system field, and at the failing input
[{system,"X"},{user,"hi"}] the outgoing messages array still contains the
entry derived from the system message, renamed to role user. -/
theorem claude_system_never_extracted :
    (∀ msgs : List Message, (ClaudeProvider.buildBody msgs).system = none) ∧
    ClaudeProvider.buildBody [exSys "s1" "X", exUser "u1" "hi"] =
      { messages := [{ role := "user", content := "X" },
                     { role := "user", content := "hi" }],
        system := none } :=
  ⟨buildBody_system_none, by decide⟩

/-! C8 — malformed data lines are skipped without aborting the stream. -/

/-- Removing one malformed data line from anywhere in the line sequence
does not change the chunks the OpenAI adapter yields. -/
lemma processLines_skip_invalid (s : String) (l₁ l₂ : List OpenAIProvider.SSELine) :
    OpenAIProvider.processLines
        (l₁ ++ OpenAIProvider.SSELine.data (OpenAIProvider.DataPayload.invalid s) :: l₂) =
      OpenAIProvider.processLines (l₁ ++ l₂) := by
  induction l₁ with
  | nil => simp [OpenAIProvider.processLines]
  | cons hd rest ih =>
      cases hd with
      | other s2 => simpa [OpenAIProvider.processLines] using ih
      | data p =>
          cases p with
          | done => simp [OpenAIProvider.processLines]
          | invalid s2 => simpa [OpenAIProvider.processLines] using ih
          | event e => simpa [OpenAIProvider.processLines] using ih

/-- C8: a malformed data line is skipped without aborting the stream
(dropping it anywhere leaves the yielded chunks unchanged), and in the
concrete shape of the claim — one unparseable line between two valid
content-bearing event lines — both content chunks are yielded in their
original order. -/
theorem malformed_line_skipped :
    (∀ (s : String) (l₁ l₂ : List OpenAIProvider.SSELine),
      OpenAIProvider.processLines
          (l₁ ++ OpenAIProvider.SSELine.data (OpenAIProvider.DataPayload.invalid s) :: l₂) =
        OpenAIProvider.processLines (l₁ ++ l₂)) ∧
    (∀ (c1 c2 bad : String), c1 ≠ "" → c2 ≠ "" →
      OpenAIProvider.processLines
          [.data (.event { choices := [{ delta := some { content := some c1 } }] }),
           .data (.invalid bad),
           .data (.event { choices := [{ delta := some { content := some c2 } }] })] =
        [{ content := some c1 }, { content := some c2 }]) := by
  constructor
  · exact processLines_skip_invalid
  · intro c1 c2 bad h1 h2
    simp [OpenAIProvider.processLines, OpenAIProvider.processEvent, strTruthy, h1, h2]

/-- C8 witness at the concrete contents "a", "b" with the unparseable
payload "oops". -/
theorem malformed_line_skipped_witness :
    OpenAIProvider.processLines
        [.data (.event { choices := [{ delta := some { content := some "a" } }] }),
         .data (.invalid "oops"),
         .data (.event { choices := [{ delta := some { content := some "b" } }] })] =
      [{ content := some "a" }, { content := some "b" }] :=
  malformed_line_skipped.2 "a" "b" "oops" (by decide) (by decide)

/-! C6 — the system-role-merging transform. -/

/-- Over a run of system messages the merging loop only accumulates their
contents into the systemContent argument. -/
lemma formatForClaudeGo_sysRun (r : List Message) :
    ∀ (s : List Message) (c : String), (∀ m ∈ s, m.role = .system) →
      PromptEngine.formatForClaudeGo (s ++ r) [] c =
        PromptEngine.formatForClaudeGo r []
          (s.foldl (fun acc m => acc ++ m.content ++ "\n\n") c) := by
  intro s
  induction s with
  | nil => intro c _; rfl
  | cons m rest ih =>
      intro c hs
      have hm : m.role = .system := hs m (by simp)
      rw [List.cons_append, PromptEngine.formatForClaudeGo, if_pos hm]
      exact ih (c ++ m.content ++ "\n\n") (fun q hq => hs q (by simp [hq]))

/-- Once the formatted accumulator is non-empty, a run of non-system
messages is appended unchanged. -/
lemma formatForClaudeGo_append_rest (t : List Message) :
    ∀ (fmt : List Message) (c : String), (∀ m ∈ t, m.role ≠ .system) →
      fmt ≠ [] → PromptEngine.formatForClaudeGo t fmt c = fmt ++ t := by
  induction t with
  | nil => intro fmt c _ _; simp [PromptEngine.formatForClaudeGo]
  | cons m rest ih =>
      intro fmt c ht hfmt
      have hm : m.role ≠ .system := ht m (by simp)
      rw [PromptEngine.formatForClaudeGo, if_neg hm,
        if_neg (by simp [hfmt] : ¬(c ≠ "" ∧ fmt = []))]
      rw [ih (fmt ++ [m]) c (fun q hq => ht q (by simp [hq])) (by simp)]
      simp

/-- The first non-system message absorbs the accumulated system content
exactly when that content is non-empty; either way the remaining
non-system messages follow unchanged. -/
lemma formatForClaudeGo_first_nonsys (h : Message) (t : List Message) (c : String)
    (hns : h.role ≠ .system) (ht : ∀ m ∈ t, m.role ≠ .system) :
    PromptEngine.formatForClaudeGo (h :: t) [] c =
      { h with content := c ++ h.content } :: t := by
  by_cases hc : c = ""
  · subst hc
    rw [PromptEngine.formatForClaudeGo, if_neg hns,
      if_neg (by simp : ¬(("" : String) ≠ "" ∧ ([] : List Message) = []))]
    simp only [List.nil_append]
    rw [formatForClaudeGo_append_rest t [h] "" ht (by simp)]
    rw [str_empty_append]
    rfl
  · rw [PromptEngine.formatForClaudeGo, if_neg hns, if_pos ⟨hc, rfl⟩]
    simp only [List.nil_append]
    rw [formatForClaudeGo_append_rest t [{ h with content := c ++ h.content }] "" ht (by simp)]
    rfl

/-- C6 counterexample: the claim says the concatenation of all system
contents is prepended to the first non-system message; but a system
message that comes after the first non-system message has its content
silently discarded. At [{user,"hi"},{system,"X"}] the transform returns
[{user,"hi"}] and not the claimed [{user,"X\n\nhi"}]. -/
theorem claude_merge_counterexample :
    PromptEngine.formatForClaude [exUser "u" "hi", exSys "s" "X"] = [exUser "u" "hi"] ∧
    PromptEngine.formatForClaude [exUser "u" "hi", exSys "s" "X"] ≠
      [{ exUser "u" "hi" with content := "X\n\nhi" }] := by
  decide

/-- C6 amended: when every system message precedes every non-system
message, the transform concatenates the system contents in order (with a
blank-line separator after each), prepends the concatenation to the first
non-system message, and drops the system entries; when the input has no
non-system message at all, the loop produces nothing and the input is
returned unchanged (system entries retained as-is, not re-emitted as a
merged standalone entry). System content that follows the first
non-system message is discarded. In particular [{system,"X"},{user,"hi"}]
yields the single message {user,"X\n\nhi"}. -/
theorem claude_merge_amended (s r : List Message)
    (hs : ∀ m ∈ s, m.role = .system) (hr : ∀ m ∈ r, m.role ≠ .system) :
    PromptEngine.formatForClaude (s ++ r) =
      (match r with
       | [] => s ++ r
       | h :: t => { h with content := PromptEngine.sysConcat s ++ h.content } :: t) := by
  unfold PromptEngine.formatForClaude
  rw [formatForClaudeGo_sysRun r s "" hs]
  cases r with
  | nil =>
      rw [PromptEngine.formatForClaudeGo]
      simp
  | cons h t =>
      rw [formatForClaudeGo_first_nonsys h t _ (hr h (by simp))
        (fun q hq => hr q (by simp [hq]))]
      simp [PromptEngine.sysConcat]

/-- C6 witness: the concrete scenario of the claim,
[{system,"X"},{user,"hi"}] yielding [{user,"X\n\nhi"}]. -/
theorem claude_merge_amended_witness :
    PromptEngine.formatForClaude [exSys "s" "X", exUser "u" "hi"] =
      [{ exUser "u" "hi" with content := "X\n\nhi" }] := by
  have h := claude_merge_amended [exSys "s" "X"] [exUser "u" "hi"]
    (by decide) (by decide)
  exact h.trans (by decide)

/-! C2 — cancellation between the first and the second chunk. -/

/-- C2 counterexample: with cancellation signaled after the first chunk is
applied and before the second is consumed, the accumulated content is
indeed only the first chunk, but the engine still invokes the completion
callback with the partial message — there is no separate cancelled
outcome, so the part of the claim stating that the completion callback is
not the outcome is false at the two-chunk stream A, B. -/
theorem streaming_cancel_counterexample :
    (StreamingEngine.streamRun
        [{ content := some "A" }, { content := some "B" }] (some 1) "m" 0).message.content = "A" ∧
    ¬(StreamingEngine.streamRun
        [{ content := some "A" }, { content := some "B" }] (some 1) "m" 0).onCompleteCalled = false := by
  decide

/-- C2 amended: for every stream of at least two chunks whose first chunk
carries non-empty content and is not terminal, cancellation signaled
after the first chunk is applied and before the second is consumed stops
the accumulator with a message whose content is exactly the first chunk
text, with the per-chunk callback invoked only for the first chunk — but
the engine then invokes the completion callback with that partial
message; the code has no distinct cancelled outcome. -/
theorem streaming_cancel_partial_amended (c1 c2 : StreamChunk)
    (rest : List StreamChunk) (msgId : String) (now : Nat) (s : String)
    (hc : c1.content = some s) (hs : s ≠ "") (hdone : c1.done = false)
    (hfin : strTruthy c1.finishReason = false) :
    (StreamingEngine.streamRun (c1 :: c2 :: rest) (some 1) msgId now).message.content = s ∧
    (StreamingEngine.streamRun (c1 :: c2 :: rest) (some 1) msgId now).onChunkCalls = [c1] ∧
    (StreamingEngine.streamRun (c1 :: c2 :: rest) (some 1) msgId now).onCompleteCalled = true := by
  obtain ⟨cc, ctc, cu, cfr, cd⟩ := c1
  simp only at hc hdone hfin
  subst hdone
  subst hc
  cases ctc <;>
    simp [StreamingEngine.streamRun, StreamingEngine.streamGo,
      StreamingEngine.applyChunk, strTruthy, hs, hfin, str_empty_append] <;>
    exact ⟨by split <;> rfl, by split <;> rfl⟩

/-- C2 witness at the concrete two-chunk stream Hi, x. -/
theorem streaming_cancel_partial_amended_witness :
    (StreamingEngine.streamRun
        [{ content := some "Hi" }, { content := some "x" }] (some 1) "w" 5).message.content = "Hi" ∧
    (StreamingEngine.streamRun
        [{ content := some "Hi" }, { content := some "x" }] (some 1) "w" 5).onChunkCalls =
      [{ content := some "Hi" }] ∧
    (StreamingEngine.streamRun
        [{ content := some "Hi" }, { content := some "x" }] (some 1) "w" 5).onCompleteCalled = true :=
  streaming_cancel_partial_amended { content := some "Hi" } { content := some "x" } [] "w" 5 "Hi"
    rfl (by decide) rfl rfl

/-! C4 — presence of pinned messages in the sendable subset. -/

/-- Every member of an id-distinct block at the front of the candidate
list survives the duplicate removal, as long as none of its ids was seen
before. -/
lemma mem_dedupGo_of_nodup (l₁ : List Message) :
    ∀ (l₂ : List Message) (seen : List String),
      (l₁.map Message.id).Nodup → (∀ q ∈ l₁, q.id ∉ seen) →
      ∀ p ∈ l₁, p ∈ MemoryWindow.dedupGo (l₁ ++ l₂) seen := by
  induction l₁ with
  | nil => intro _ _ _ _ p hp; cases hp
  | cons m rest ih =>
      intro l₂ seen hnd hseen p hp
      have hm : m.id ∉ seen := hseen m (by simp)
      rw [List.cons_append, MemoryWindow.dedupGo, if_neg hm]
      rcases List.mem_cons.mp hp with rfl | hp
      · exact List.mem_cons_self _ _
      · refine List.mem_cons_of_mem _ ?_
        obtain ⟨hhead, hnd2⟩ :
            (∀ x ∈ rest, ¬x.id = m.id) ∧ (rest.map Message.id).Nodup := by
          simpa using hnd
        refine ih l₂ (m.id :: seen) hnd2 ?_ p hp
        intro q hq
        simp only [List.mem_cons]
        push_neg
        exact ⟨fun hqe => hhead q hq hqe, hseen q (by simp [hq])⟩

/-- C4 counterexample: a pinned message is dropped by token-budget
trimming. With maxTokens = 1, a pinned message of 4 characters and one
recent message of 4 characters, the sendable subset is only the recent
message: the claim (pinned always present regardless of the token budget
configuration) is false at this state. -/
theorem pinned_dropped_counterexample :
    exUser "p" "AAAA" ∉
      (MemoryWindow.getContext
        { config := { maxMessages := 50, maxTokens := 1,
                      enableSummarization := false, systemPromptLocked := true }
          messages := [exUser "2" "BBBB"]
          systemPrompt := none
          pinnedMessages := [exUser "p" "AAAA"] }).messages ∧
    (MemoryWindow.getContext
        { config := { maxMessages := 50, maxTokens := 1,
                      enableSummarization := false, systemPromptLocked := true }
          messages := [exUser "2" "BBBB"]
          systemPrompt := none
          pinnedMessages := [exUser "p" "AAAA"] }).messages = [exUser "2" "BBBB"] := by
  decide

/-- C4 amended: with token-budget trimming disabled (maxTokens at most 0)
and pairwise-distinct pinned ids, every pinned message is present in the
sendable subset regardless of recency and of the maxMessages ceiling;
when maxTokens is positive, token trimming walks newest-first and can
drop pinned messages, which sit at the oldest end of the candidate
list. -/
theorem pinned_included_when_no_token_trim (w : MemoryWindow)
    (h1 : w.config.maxTokens ≤ 0)
    (h2 : (w.pinnedMessages.map Message.id).Nodup) :
    ∀ p ∈ w.pinnedMessages, p ∈ (MemoryWindow.getContext w).messages := by
  intro p hp
  rw [getContext_messages, if_neg (by omega : ¬w.config.maxTokens > 0)]
  exact mem_dedupGo_of_nodup w.pinnedMessages _ [] h2 (by simp) p hp

/-- C4 witness: the same state as the counterexample but with the token
budget disabled keeps the pinned message. -/
theorem pinned_included_witness :
    exUser "p" "AAAA" ∈
      (MemoryWindow.getContext
        { config := { maxMessages := 50, maxTokens := 0,
                      enableSummarization := false, systemPromptLocked := true }
          messages := [exUser "2" "BBBB"]
          systemPrompt := none
          pinnedMessages := [exUser "p" "AAAA"] }).messages :=
  pinned_included_when_no_token_trim _ (by decide) (by decide) _ (by decide)

/-! C5 — non-emptiness of the sendable subset. -/

/-- jsSlice with a non-positive start argument of the form minus k keeps
a non-empty suffix of a non-empty list. -/
lemma jsSlice_neg_ne_nil (k : Int) (hk : 0 ≤ k) (l : List α) (hl : l ≠ []) :
    jsSlice (-k) l ≠ [] := by
  have hlen : 0 < l.length := List.length_pos.mpr hl
  intro h
  have hlen2 := congrArg List.length h
  rw [jsSlice, List.length_drop] at hlen2
  simp only [List.length_nil] at hlen2
  by_cases hneg : -k < 0
  · rw [if_pos hneg] at hlen2
    omega
  · rw [if_neg hneg] at hlen2
    omega

/-- Duplicate removal keeps the head of a non-empty list. -/
lemma dedupById_ne_nil (l : List Message) (h : l ≠ []) :
    MemoryWindow.dedupById l ≠ [] := by
  cases l with
  | nil => exact absurd rfl h
  | cons m rest => simp [MemoryWindow.dedupById, MemoryWindow.dedupGo]

/-- Token trimming of a non-empty candidate list is non-empty: either the
budget loop kept something or the code falls back to slice(-1). -/
lemma trimByTokens_ne_nil (w : MemoryWindow) (msgs : List Message)
    (h : msgs ≠ []) : MemoryWindow.trimByTokens w msgs ≠ [] := by
  by_cases hmt : w.config.maxTokens ≤ 0
  · rw [MemoryWindow.trimByTokens, if_pos hmt]
    exact h
  · rw [MemoryWindow.trimByTokens, if_neg hmt]
    show (if (MemoryWindow.tbLoop w.config.maxTokens msgs.reverse
        (MemoryWindow.sysTokens w)).length > 0 then _ else _) ≠ []
    split
    · next hres => exact List.length_pos.mp hres
    · exact jsSlice_neg_ne_nil 1 (by omega) msgs h

/-- C5: whenever the transcript is non-empty (and the configured message
ceiling is non-negative, as every count is), the sendable subset is
non-empty for every token budget value: if the budget loop keeps nothing,
the code returns the single most recent candidate regardless of
budget. -/
theorem sendable_nonempty (w : MemoryWindow)
    (h1 : 0 ≤ w.config.maxMessages) (h2 : w.messages ≠ []) :
    (MemoryWindow.getContext w).messages ≠ [] := by
  have hrec : jsSlice (-w.config.maxMessages) w.messages ≠ [] :=
    jsSlice_neg_ne_nil w.config.maxMessages h1 w.messages h2
  have hcand : w.pinnedMessages ++ jsSlice (-w.config.maxMessages) w.messages ≠ [] := by
    intro hx
    exact hrec (List.append_eq_nil.mp hx).2
  rw [getContext_messages]
  split
  · exact trimByTokens_ne_nil w _ (dedupById_ne_nil _ hcand)
  · exact dedupById_ne_nil _ hcand

/-- C5 witness: a one-message transcript under a budget of one token
still yields a non-empty sendable subset. -/
theorem sendable_nonempty_witness :
    (MemoryWindow.getContext
      { config := { maxMessages := 50, maxTokens := 1,
                    enableSummarization := false, systemPromptLocked := true }
        messages := [exUser "1" "AAAAAAAA"]
        systemPrompt := none
        pinnedMessages := [] }).messages ≠ [] :=
  sendable_nonempty _ (by decide) (by decide)

/-! C3 — the transcript under append and the message-count ceiling. -/

/-- jsSlice at minus a positive count keeps the last count elements. -/
lemma jsSlice_neg_nat (k : Nat) (hk : 0 < k) (l : List α) :
    jsSlice (-(k : Int)) l = l.drop (l.length - k) := by
  rw [jsSlice, if_pos (by omega : -(k : Int) < 0)]
  congr 1
  omega

/-- trim does not touch the configuration. -/
lemma trim_config (w : MemoryWindow) : (MemoryWindow.trim w).config = w.config := by
  unfold MemoryWindow.trim
  split <;> rfl

/-- addMessages does not touch the configuration. -/
lemma addMessages_config (w : MemoryWindow) (ms : List Message) :
    (MemoryWindow.addMessages w ms).config = w.config :=
  trim_config _

/-- With a positive ceiling, trim always leaves exactly the last
maxMessages entries (a no-op drop of zero when the transcript is within
the ceiling). -/
lemma trim_messages_eq (w : MemoryWindow) (hk : 0 < w.config.maxMessages) :
    (MemoryWindow.trim w).messages =
      w.messages.drop (w.messages.length - w.config.maxMessages.toNat) := by
  unfold MemoryWindow.trim
  split
  · next h =>
      show jsSlice (-w.config.maxMessages) w.messages = _
      rw [show -w.config.maxMessages = -((w.config.maxMessages.toNat : Nat) : Int) by omega]
      exact jsSlice_neg_nat w.config.maxMessages.toNat (by omega) w.messages
  · next h =>
      rw [show w.messages.length - w.config.maxMessages.toNat = 0 by omega,
        List.drop_zero]

/-- Keeping the last k elements, appending, and keeping the last k again
is the same as keeping the last k of the whole concatenation. -/
lemma drop_append_drop (k : Nat) (L M : List Message) :
    ((L.drop (L.length - k)) ++ M).drop
        (((L.drop (L.length - k)) ++ M).length - k) =
      (L ++ M).drop ((L ++ M).length - k) := by
  have hj : L.length - k ≤ L.length := Nat.sub_le _ _
  rw [(List.drop_append_of_le_length hj).symm, List.drop_drop]
  congr 1
  simp only [List.length_drop, List.length_append]
  omega

/-- Invariant of the append loop: if the transcript is the last-k suffix
of the log of everything appended so far, it stays that way under
addMessages, batch by batch. -/
lemma foldl_addMessages_messages (bs : List (List Message)) :
    ∀ (w : MemoryWindow) (L : List Message), 0 < w.config.maxMessages →
      w.messages = L.drop (L.length - w.config.maxMessages.toNat) →
      (List.foldl MemoryWindow.addMessages w bs).messages =
        (L ++ bs.flatten).drop
          ((L ++ bs.flatten).length - w.config.maxMessages.toNat) := by
  induction bs with
  | nil =>
      intro w L hk hinv
      simpa using hinv
  | cons b rest ih =>
      intro w L hk hinv
      rw [List.foldl_cons]
      have hcfg : (MemoryWindow.addMessages w b).config = w.config :=
        addMessages_config w b
      have hmsg : (MemoryWindow.addMessages w b).messages =
          (L ++ b).drop ((L ++ b).length - w.config.maxMessages.toNat) := by
        show (MemoryWindow.trim { w with messages := w.messages ++ b }).messages = _
        rw [trim_messages_eq { w with messages := w.messages ++ b } hk]
        show (w.messages ++ b).drop
            ((w.messages ++ b).length - w.config.maxMessages.toNat) = _
        rw [hinv]
        exact drop_append_drop w.config.maxMessages.toNat L b
      have := ih (MemoryWindow.addMessages w b) (L ++ b)
        (by rw [hcfg]; exact hk) (by rw [hcfg]; exact hmsg)
      rw [this, hcfg]
      simp [List.append_assoc]

/-- C3 counterexample: with maxMessages = 1 the ceiling applied on append
drops the older message, so after two appends the full-transcript
accessor holds one message, not two — the claim (length equals the total
number of appends, for every sequence) is false at this sequence. -/
theorem transcript_length_counterexample :
    MemoryWindow.getAllMessages
        (((MemoryWindow.mk0 { maxMessages := some 1 }).addMessage
            (exUser "1" "a")).addMessage (exUser "2" "b")) = [exUser "2" "b"] ∧
    MemoryWindow.getAllMessages
        (((MemoryWindow.mk0 { maxMessages := some 1 }).addMessage
            (exUser "1" "a")).addMessage (exUser "2" "b")) ≠
      [exUser "1" "a", exUser "2" "b"] := by
  decide

/-- C3 amended: the transcript is always the most recent maxMessages
entries of the append log, in insertion order (a suffix, no dedup at the
transcript level); length equals the total number of appends exactly when
that total is within the configured ceiling, because append re-applies
the ceiling by dropping the oldest entries. Appends are taken in batches
(addMessage is the singleton batch of addMessages). -/
theorem transcript_suffix_amended (cfg : MemoryConfigR)
    (hk : 0 < cfg.maxMessages) (sys : Option String)
    (pinned : List Message) (batches : List (List Message)) :
    MemoryWindow.getAllMessages
        (List.foldl MemoryWindow.addMessages
          { config := cfg, messages := [], systemPrompt := sys,
            pinnedMessages := pinned } batches) =
      batches.flatten.drop (batches.flatten.length - cfg.maxMessages.toNat) ∧
    ((batches.flatten.length : Int) ≤ cfg.maxMessages →
      MemoryWindow.getAllMessages
          (List.foldl MemoryWindow.addMessages
            { config := cfg, messages := [], systemPrompt := sys,
              pinnedMessages := pinned } batches) =
        batches.flatten) := by
  have h := foldl_addMessages_messages batches
    { config := cfg, messages := [], systemPrompt := sys, pinnedMessages := pinned }
    [] hk (by simp)
  simp only [List.nil_append] at h
  refine ⟨h, fun hle => ?_⟩
  simp only [MemoryWindow.getAllMessages] at h ⊢
  rw [h, show batches.flatten.length - cfg.maxMessages.toNat = 0 by omega,
    List.drop_zero]

/-- C3 witness: ceiling two, three singleton appends, transcript is the
last two messages in insertion order. -/
theorem transcript_suffix_amended_witness :
    MemoryWindow.getAllMessages
        (List.foldl MemoryWindow.addMessages
          { config := { maxMessages := 2, maxTokens := 8000,
                        enableSummarization := false, systemPromptLocked := true },
            messages := [], systemPrompt := none, pinnedMessages := [] }
          [[exUser "1" "a"], [exUser "2" "b"], [exUser "3" "c"]]) =
      [exUser "2" "b", exUser "3" "c"] :=
  (transcript_suffix_amended
      { maxMessages := 2, maxTokens := 8000,
        enableSummarization := false, systemPromptLocked := true }
      (by decide) none []
      [[exUser "1" "a"], [exUser "2" "b"], [exUser "3" "c"]]).1.trans (by decide)

end ChatWidget
